import Mathlib

/-!
Shallow embedding of the request dispatch engine of the adhesion HTTP server
(source file src/http_server.rs).  TCP streams are modelled as finite
character sequences (one character per byte for the ASCII wire data the
server manipulates; byte counts are computed with UTF-8 character sizes
where the source counts bytes).  Rust string splitting, trimming and
numeric parsing are re-implemented on character lists so that every
definition is executable.  Hash maps with string keys are modelled as
association lists with overwriting insertion, which preserves the
observable lookup semantics.  The while loops of the source are embedded
as fuel-indexed recursions together with theorems showing the supplied
fuel suffices.
-/

namespace Adhesion

/-- Rust `str::split(sep)` restricted to a one-character separator:
splits at every occurrence, keeping empty chunks. -/
def splitOnChar (sep : Char) : List Char → List (List Char)
  | [] => [[]]
  | c :: cs =>
      if c = sep then [] :: splitOnChar sep cs
      else
        match splitOnChar sep cs with
        | [] => [[c]]
        | t :: ts => (c :: t) :: ts

/-- Rust `str::trim`: drop whitespace from both ends. -/
def trimChars (l : List Char) : List Char :=
  ((l.dropWhile Char.isWhitespace).reverse.dropWhile Char.isWhitespace).reverse

/-- Rust `str::find(pat)` with a one-character pattern, expressed as the
split it induces in `handle_stream`: the part strictly before the first
occurrence, and the rest starting at the occurrence (or `[]` if absent).
This mirrors slicing with `[..query_index]` and `[query_index..]`. -/
def splitAtFirst (sep : Char) : List Char → List Char × List Char
  | [] => ([], [])
  | c :: cs =>
      if c = sep then ([], c :: cs)
      else (c :: (splitAtFirst sep cs).1, (splitAtFirst sep cs).2)

/-- One `BufReader::read_line` call: consume up to and including the first
newline character, or the whole stream if it holds none.  Returns the
consumed line and the remaining stream. -/
def readLine : List Char → List Char × List Char
  | [] => ([], [])
  | c :: cs =>
      if c = '\n' then ([c], cs)
      else (c :: (readLine cs).1, (readLine cs).2)

/-- Number of bytes `read_line` reports for a consumed line (UTF-8 size). -/
def lineBytes (l : List Char) : Nat :=
  l.foldl (fun n c => n + c.utf8Size) 0

/-- The head-reading loop of `handle_stream` (source lines 94-108): keep
appending lines to the accumulated request until a line of fewer than
3 bytes is read.  The loop is embedded with explicit fuel; the theorem
for the termination claim shows that `stream.length + 1` fuel always
suffices. -/
def readHeadFuel : Nat → List Char → List Char → Option (List Char × List Char)
  | 0, _, _ => none
  | fuel + 1, acc, s =>
      if lineBytes (readLine s).1 < 3 then some (acc ++ (readLine s).1, (readLine s).2)
      else readHeadFuel fuel (acc ++ (readLine s).1) (readLine s).2

/-- Helper for `parseUsize`: Rust unsigned integer parsing accepts one
optional leading plus sign. -/
def stripPlus : List Char → List Char
  | '+' :: rest => rest
  | l => l

/-- Rust `str::parse::<usize>()`: optional leading plus sign, then one or
more ASCII digits, failing on overflow past the 64-bit range. -/
def parseUsize (l : List Char) : Option Nat :=
  if stripPlus l ≠ [] ∧ (stripPlus l).all Char.isDigit then
    if (stripPlus l).foldl (fun n c => n * 10 + (c.toNat - 48)) 0 < 2 ^ 64 then
      some ((stripPlus l).foldl (fun n c => n * 10 + (c.toNat - 48)) 0)
    else none
  else none

/-- `HashMap::insert` observed through an association list: overwrite the
value of an existing key, otherwise append the new pair. -/
def mapInsert : List (String × String) → String → String → List (String × String)
  | [], k, v => [(k, v)]
  | p :: rest, k, v => if p.1 = k then (k, v) :: rest else p :: mapInsert rest k v

/-- `HashMap::get` observed through an association list. -/
def mapLookup : List (String × String) → String → Option String
  | [], _ => none
  | p :: rest, k => if p.1 = k then some p.2 else mapLookup rest k

structure HTTPStatus where
  status : Nat
  reason : String
  deriving DecidableEq

structure HTTPResponse where
  status : HTTPStatus
  body : String
  headers : List (String × String)
  deriving DecidableEq

inductive HTTPMethod where
  | GET
  | HEAD
  | POST
  | PUT
  | DELETE
  | CONNECT
  | OPTION
  | TRACE
  | PATCH
  | INVALID
  deriving DecidableEq

structure Route where
  method : HTTPMethod
  location : String
  deriving DecidableEq

/-- Host-supplied handler signature (`HTTPListener<T>` in the source). -/
def HTTPListener (T : Type) : Type :=
  List (String × String) → String → List (String × String) → T → HTTPResponse

/-- Record of one handler call: which function ran and with which
arguments.  Used to state which listener `handle_stream` dispatched to. -/
structure Invocation (T : Type) where
  handler : HTTPListener T
  headers : List (String × String)
  body : String
  query : List (String × String)
  ctx : T

/-- Observable outcome of `handle_stream` on one connection: the list of
response records written to the socket (in order), the handler invocation
if one happened, and how the function ended.  `panicked` is the `unwrap`
panic of the body read, which drops the connection without dispatching;
`loopDiverged` is the artificial fuel-exhaustion case of the embedded
head-reading loop, shown unreachable. -/
inductive HandleOutcome (T : Type) where
  | loopDiverged
  | earlyClose (written : List HTTPResponse)
  | panicked (written : List HTTPResponse)
  | completed (written : List HTTPResponse) (invoked : Option (Invocation T))
      (response : HTTPResponse)

/-- Status-code to reason-phrase table (source lines 288-347), with `none`
modelling the `expect` panic of the source on an unlisted code. -/
def http_code_reason (code : Nat) : Option String :=
  match code with
  | 100 => some "Continue"
  | 101 => some "Switching Protocols"
  | 103 => some "Early Hints"
  | 200 => some "OK"
  | 201 => some "Created"
  | 202 => some "Accepted"
  | 203 => some "Non-Authoritative Information"
  | 204 => some "No Content"
  | 205 => some "Reset Content"
  | 206 => some "Partial Content"
  | 300 => some "Multiple Choices"
  | 301 => some "Moved Permanently"
  | 302 => some "Found"
  | 303 => some "See Other"
  | 304 => some "Not Modigied"
  | 307 => some "Temporary Redirect"
  | 308 => some "Permanent Redirect"
  | 400 => some "Bad Request"
  | 401 => some "Unauthorized"
  | 402 => some "Payment Required"
  | 403 => some "Forbidden"
  | 404 => some "Not Found"
  | 405 => some "Method not Allowed"
  | 406 => some "Not Acceptable"
  | 407 => some "Proxy Authentication Required"
  | 408 => some "Request Timeout"
  | 409 => some "Conflict"
  | 410 => some "Gone"
  | 411 => some "Length Required"
  | 412 => some "Precondition Failed"
  | 413 => some "Payload Too Large"
  | 414 => some "URI Too Long"
  | 415 => some "Unsupported Media Type"
  | 416 => some "Range not Satisfiable"
  | 417 => some "Expectation Failed"
  | 418 => some "I\x27m a teapot"
  | 422 => some "Unprocessable Entity"
  | 425 => some "Too Early"
  | 426 => some "Upgrade Required"
  | 428 => some "Precondition Required"
  | 429 => some "Too Many Requirests"
  | 431 => some "Request Header Fields Too Large"
  | 451 => some "Unavailable For Legal Reasons"
  | 500 => some "Internal Server Error"
  | 501 => some "Not Implemented"
  | 502 => some "Bad Gateway"
  | 503 => some "Service Unavailable"
  | 504 => some "Gateway Timeout"
  | 505 => some "HTTP Version Not Supported"
  | 506 => some "Variant Also Negotiates"
  | 507 => some "Insufficient Storage"
  | 508 => some "Loop Detected"
  | 510 => some "Not Extended"
  | 511 => some "Network Authentication Required"
  | _ => none

/-- The codes the spec lists as recognized by the phrase table. -/
def recognizedCodes : List Nat :=
  [100, 101, 103, 200, 201, 202, 203, 204, 205, 206, 300, 301, 302, 303, 304,
   307, 308, 400, 401, 402, 403, 404, 405, 406, 407, 408, 409, 410, 411, 412,
   413, 414, 415, 416, 417, 418, 422, 425, 426, 428, 429, 431, 451, 500, 501,
   502, 503, 504, 505, 506, 507, 508, 510, 511]

/-- `HTTPStatus::new` (only ever applied to recognized codes in the
source; the `getD` default stands for the `expect` panic). -/
def statusNew (code : Nat) : HTTPStatus :=
  ⟨code, (http_code_reason code).getD ""⟩

/-- Built-in 400 response of `send_400_default_response`. -/
def send_400_default_response : HTTPResponse :=
  { status := statusNew 400
    body := "Received invalid data"
    headers := [("Content-Length", "21")] }

/-- Built-in 404 response of `get_404_default_response`. -/
def get_404_default_response : HTTPResponse :=
  { status := statusNew 404
    body := "The requested resource hasn\x27t been found on this server."
    headers := [("Content-Length", "56")] }

/-- Splitting the accumulated request on newlines (source line 111). -/
def requestLines (request : List Char) : List (List Char) :=
  splitOnChar '\n' request

/-- Splitting the request line on spaces (source line 134). -/
def contextTokens (request : List Char) : List (List Char) :=
  splitOnChar ' ' ((requestLines request).getD 0 [])

/-- Body of the header loop (source lines 120-131): a line splitting on
colons into exactly two parts is inserted with trimmed value, and if it
begins with the literal Content-Length the trimmed value is parsed as the
body size, defaulting to 0 on parse failure.  All other lines are
skipped. -/
def headerStep (acc : List (String × String) × Nat) (l : List Char) :
    List (String × String) × Nat :=
  match splitOnChar ':' l with
  | [k, v] =>
      (mapInsert acc.1 (String.mk k) (String.mk (trimChars v)),
        if List.isPrefixOf ("Content-Length".data) l then
          (parseUsize (trimChars v)).getD 0
        else acc.2)
  | _ => acc

/-- The header loop folded over every line after the request line. -/
def headerInfo (lines : List (List Char)) : List (String × String) × Nat :=
  (lines.drop 1).foldl headerStep ([], 0)

/-- Method parsing (source lines 181-196): exact match of nine strings,
anything else marked INVALID. -/
def parseMethod (s : String) : HTTPMethod :=
  match s with
  | "GET" => HTTPMethod.GET
  | "HEAD" => HTTPMethod.HEAD
  | "POST" => HTTPMethod.POST
  | "PUT" => HTTPMethod.PUT
  | "DELETE" => HTTPMethod.DELETE
  | "CONNECT" => HTTPMethod.CONNECT
  | "OPTION" => HTTPMethod.OPTION
  | "TRACE" => HTTPMethod.TRACE
  | "PATCH" => HTTPMethod.PATCH
  | _ => HTTPMethod.INVALID

/-- Method of the parsed request line. -/
def parsedMethodOf (request : List Char) : HTTPMethod :=
  parseMethod (String.mk ((contextTokens request).getD 0 []))

/-- The request-target token `context[1]`. -/
def requestTarget (request : List Char) : List Char :=
  (contextTokens request).getD 1 []

/-- One step of the query loop (source lines 152-157): a token splitting
on the equals sign into exactly two parts is inserted verbatim, anything
else is dropped. -/
def queryStep (acc : List (String × String)) (param : List Char) :
    List (String × String) :=
  match splitOnChar '=' param with
  | [k, v] => mapInsert acc (String.mk k) (String.mk v)
  | _ => acc

/-- Query parsing (source lines 151-157): drop the leading question mark
if the query portion is nonempty, split on ampersands and fold the token
step. -/
def parseQuery (query : List Char) : List (String × String) :=
  (splitOnChar '&' (if query.length ≠ 0 then query.drop 1 else query)).foldl queryStep []

/-- The trailing-slash loop of `handle_stream` (source lines 176-178),
with explicit fuel: drop the final character while the path ends with a
slash and is longer than one byte. -/
def trimLocFuel : Nat → List Char → List Char
  | 0, l => l
  | fuel + 1, l =>
      if l.getLast? = some '/' ∧ 1 < l.length then trimLocFuel fuel l.dropLast
      else l

/-- Trailing-slash normalization; `l.length` fuel always suffices because
each iteration shortens the path by one character. -/
def trimLoc (l : List Char) : List Char :=
  trimLocFuel l.length l

/-- `HashMap::get` on the route table. -/
def lookupRoute {T : Type} : List (Route × HTTPListener T) → Route → Option (HTTPListener T)
  | [], _ => none
  | p :: rest, r => if p.1 = r then some p.2 else lookupRoute rest r

/-- Route lookup and dispatch (source lines 180-204): on a hit call the
registered listener, on a miss call the 404 fallback if set, otherwise
produce the built-in 404 response.  Also records the invocation made. -/
def dispatch {T : Type} (listeners : List (Route × HTTPListener T))
    (d404 : Option (HTTPListener T)) (m : HTTPMethod) (loc : String)
    (hd : List (String × String)) (bd : String) (q : List (String × String))
    (pt : T) : Option (Invocation T) × HTTPResponse :=
  match lookupRoute listeners ⟨m, loc⟩ with
  | some l => (some ⟨l, hd, bd, q, pt⟩, l hd bd q pt)
  | none =>
      match d404 with
      | some h => (some ⟨h, hd, bd, q, pt⟩, h hd bd q pt)
      | none => (none, get_404_default_response)

/-- `dispatch` applied to the pieces `handle_stream` parses out of the
request head and the body content it read. -/
def parsedDispatch {T : Type} (request content : List Char)
    (listeners : List (Route × HTTPListener T)) (d404 : Option (HTTPListener T))
    (pt : T) : Option (Invocation T) × HTTPResponse :=
  dispatch listeners d404 (parsedMethodOf request)
    (String.mk (trimLoc (splitAtFirst '?' (requestTarget request)).1))
    (headerInfo (requestLines request)).1
    (String.mk content)
    (parseQuery (splitAtFirst '?' (requestTarget request)).2)
    pt

/-- `Read::read_exact` on the remaining stream: succeed with exactly `n`
characters and the leftover stream, or fail when the stream is shorter
than `n`. -/
def read_exact (rest : List Char) (n : Nat) : Option (List Char × List Char) :=
  if rest.length < n then none else some (rest.take n, rest.drop n)

/-- Everything `handle_stream` does after the head-reading loop (source
lines 110-213): structural validation, header parsing, request-line
validation, body read (whose `unwrap` panic is the `panicked` outcome),
then dispatch.  On an INVALID method the built-in 400 response is written
first and dispatch still proceeds, exactly as in the source. -/
def handleRequest {T : Type} (request rest : List Char)
    (listeners : List (Route × HTTPListener T)) (d404 : Option (HTTPListener T))
    (pt : T) : HandleOutcome T :=
  if (requestLines request).length < 3 then
    HandleOutcome.earlyClose [send_400_default_response]
  else if (contextTokens request).length < 3 then
    HandleOutcome.earlyClose [send_400_default_response]
  else if rest.length < (headerInfo (requestLines request)).2 then
    HandleOutcome.panicked []
  else
    HandleOutcome.completed
      ((if parsedMethodOf request = HTTPMethod.INVALID then
          [send_400_default_response]
        else []) ++
        [(parsedDispatch request (rest.take (headerInfo (requestLines request)).2)
            listeners d404 pt).2])
      (parsedDispatch request (rest.take (headerInfo (requestLines request)).2)
        listeners d404 pt).1
      (parsedDispatch request (rest.take (headerInfo (requestLines request)).2)
        listeners d404 pt).2

/-- Full `handle_stream` on one connection stream. -/
def handle_stream {T : Type} (stream : List Char)
    (listeners : List (Route × HTTPListener T)) (d404 : Option (HTTPListener T))
    (pt : T) : HandleOutcome T :=
  match readHeadFuel (stream.length + 1) [] stream with
  | none => HandleOutcome.loopDiverged
  | some hr => handleRequest hr.1 hr.2 listeners d404 pt

/-- Header serialization (source lines 254-260): every pair becomes
key, colon, value, newline, appended in iteration order. -/
def parse_headers (headers : List (String × String)) : String :=
  headers.foldl (fun conv h => conv ++ h.1 ++ ":" ++ h.2 ++ "\n") ""

/-- The byte string `close_stream` writes to the socket (source lines
215-229). -/
def close_stream (r : HTTPResponse) : String :=
  "HTTP/1.1 " ++ toString r.status.status ++ " " ++ r.status.reason ++ "\r\n" ++
    parse_headers r.headers ++ "\r\n" ++ r.body

/-! Helper lemmas shared by the claim theorems. -/

theorem mapLookup_mapInsert (m : List (String × String)) (k v k' : String) :
    mapLookup (mapInsert m k v) k' = if k' = k then some v else mapLookup m k' := by
  induction m with
  | nil =>
      by_cases h : k' = k
      · simp [mapInsert, mapLookup, h]
      · simp [mapInsert, mapLookup, h, Ne.symm h]
  | cons p rest ih =>
      obtain ⟨pk, pv⟩ := p
      by_cases hp : pk = k
      · subst hp
        by_cases h : k' = pk
        · simp [mapInsert, mapLookup, h]
        · simp [mapInsert, mapLookup, h, Ne.symm h]
      · by_cases h : k' = k
        · subst h
          simp [mapInsert, mapLookup, hp, ih]
        · simp [mapInsert, mapLookup, hp, h, ih]

theorem readLine_append (s : List Char) : (readLine s).1 ++ (readLine s).2 = s := by
  induction s with
  | nil => rfl
  | cons c cs ih =>
      simp only [readLine]
      split
      · rfl
      · simpa using ih

theorem readLine_snd_length_lt (s : List Char) (h : (readLine s).1 ≠ []) :
    (readLine s).2.length < s.length := by
  have hap := readLine_append s
  have hlen : (readLine s).1.length + (readLine s).2.length = s.length := by
    rw [← List.length_append, hap]
  have hpos : 0 < (readLine s).1.length := List.length_pos.mpr h
  omega

theorem readLine_fst_ne_nil_of_bytes (s : List Char)
    (h : 3 ≤ lineBytes (readLine s).1) : (readLine s).1 ≠ [] := by
  intro hn
  rw [hn] at h
  exact absurd h (by decide)

theorem readHeadFuel_isSome (fuel : Nat) :
    ∀ acc s : List Char, s.length < fuel → (readHeadFuel fuel acc s).isSome = true := by
  induction fuel with
  | zero => intro acc s h; exact absurd h (by omega)
  | succ n ih =>
      intro acc s h
      by_cases hb : lineBytes (readLine s).1 < 3
      · simp [readHeadFuel, hb]
      · rw [readHeadFuel, if_neg hb]
        apply ih
        have hne := readLine_fst_ne_nil_of_bytes s (by omega)
        have := readLine_snd_length_lt s hne
        omega

theorem trimLocFuel_replicate (fuel : Nat) :
    ∀ l : List Char, ∃ n, l = trimLocFuel fuel l ++ List.replicate n '/' := by
  induction fuel with
  | zero => intro l; exact ⟨0, by simp [trimLocFuel]⟩
  | succ m ih =>
      intro l
      simp only [trimLocFuel]
      by_cases hc : l.getLast? = some '/' ∧ 1 < l.length
      · rw [if_pos hc]
        obtain ⟨n, hn⟩ := ih l.dropLast
        refine ⟨n + 1, ?_⟩
        have hne : l ≠ [] := by intro h; rw [h] at hc; simp at hc
        have hlast : l.getLast hne = '/' := by
          have hg := List.getLast?_eq_getLast l hne
          rw [hg] at hc
          exact Option.some.inj hc.1
        calc l = l.dropLast ++ [l.getLast hne] := (List.dropLast_append_getLast hne).symm
          _ = (trimLocFuel m l.dropLast ++ List.replicate n '/') ++ ['/'] := by
              rw [← hn, hlast]
          _ = trimLocFuel m l.dropLast ++ List.replicate (n + 1) '/' := by
              rw [List.append_assoc, ← List.replicate_succ' n '/']
      · rw [if_neg hc]
        exact ⟨0, by simp⟩

theorem trimLocFuel_no_trailing (fuel : Nat) :
    ∀ l : List Char, l.length ≤ fuel →
      (trimLocFuel fuel l).getLast? = some '/' → (trimLocFuel fuel l).length ≤ 1 := by
  induction fuel with
  | zero =>
      intro l hl
      have hnil : l = [] := List.eq_nil_of_length_eq_zero (by omega)
      subst hnil
      intro h
      simp [trimLocFuel] at h
  | succ m ih =>
      intro l hl
      simp only [trimLocFuel]
      by_cases hc : l.getLast? = some '/' ∧ 1 < l.length
      · rw [if_pos hc]
        apply ih
        rw [List.length_dropLast]
        omega
      · rw [if_neg hc]
        intro hlast
        by_contra hlen
        exact hc ⟨hlast, by omega⟩

theorem trimLocFuel_ne_nil (fuel : Nat) :
    ∀ l : List Char, l ≠ [] → trimLocFuel fuel l ≠ [] := by
  induction fuel with
  | zero => intro l h; simpa [trimLocFuel] using h
  | succ m ih =>
      intro l h
      simp only [trimLocFuel]
      by_cases hc : l.getLast? = some '/' ∧ 1 < l.length
      · rw [if_pos hc]
        apply ih
        intro hd
        have hlen : l.dropLast.length = l.length - 1 := List.length_dropLast l
        rw [hd] at hlen
        simp at hlen
        omega
      · rw [if_neg hc]
        exact h

theorem parse_headers_foldl (hs : List (String × String)) :
    ∀ init : String,
      hs.foldl (fun conv h => conv ++ h.1 ++ ":" ++ h.2 ++ "\n") init =
        init ++ parse_headers hs := by
  induction hs with
  | nil => intro init; simp [parse_headers, String.append_empty]
  | cons h t ih =>
      intro init
      simp only [parse_headers, List.foldl_cons] at ih ⊢
      rw [ih, ih ("" ++ h.1 ++ ":" ++ h.2 ++ "\n")]
      simp [String.empty_append, String.append_assoc]

/-! Concrete handlers and streams used by the closed statements below. -/

def c1Handler : HTTPListener Unit :=
  fun _ _ _ _ => ⟨⟨200, "OK"⟩, "hi", [("Content-Length", "2")]⟩

def c1Stream : List Char := "GET /hello HTTP/1.1\r\nHost: x\r\n\r\n".data

def c2cexResponse : HTTPResponse := ⟨⟨200, "OK"⟩, "fallback", []⟩

def c2cexHandler : HTTPListener Unit := fun _ _ _ _ => c2cexResponse

def c2Handler : HTTPListener Unit := fun _ _ _ _ => ⟨⟨200, "OK"⟩, "f", []⟩

def c2Stream : List Char := "FOO / HTTP/1.1\r\n\r\n".data

/-- C1: for every well-formed request (head read, at least three lines, at
least three request-line tokens, enough body bytes, recognized method),
route lookup on the key built from the parsed method and the normalized
path determines the response: the parsed pieces are dispatched, a route
hit invokes exactly the registered handler with the parsed headers, body,
query map and the host context and returns its value, a miss invokes the
registered 404 fallback with the same arguments when one is set, and
otherwise yields the built-in 404 response with status 404, the fixed
body, and the Content-Length 56 header; the fallback is never invoked on
a hit. -/
theorem route_dispatch_determines_response {T : Type} (stream : List Char)
    (listeners : List (Route × HTTPListener T)) (d404 : Option (HTTPListener T))
    (pt : T) (request rest : List Char)
    (hread : readHeadFuel (stream.length + 1) [] stream = some (request, rest))
    (hlines : 3 ≤ (requestLines request).length)
    (hctx : 3 ≤ (contextTokens request).length)
    (hbody : (headerInfo (requestLines request)).2 ≤ rest.length)
    (hm : parsedMethodOf request ≠ HTTPMethod.INVALID) :
    handle_stream stream listeners d404 pt =
      HandleOutcome.completed
        [(parsedDispatch request (rest.take (headerInfo (requestLines request)).2)
            listeners d404 pt).2]
        (parsedDispatch request (rest.take (headerInfo (requestLines request)).2)
          listeners d404 pt).1
        (parsedDispatch request (rest.take (headerInfo (requestLines request)).2)
          listeners d404 pt).2 ∧
    (∀ (m : HTTPMethod) (loc : String) (h : HTTPListener T)
        (hd : List (String × String)) (bd : String) (q : List (String × String)),
        lookupRoute listeners ⟨m, loc⟩ = some h →
        dispatch listeners d404 m loc hd bd q pt =
          (some ⟨h, hd, bd, q, pt⟩, h hd bd q pt)) ∧
    (∀ (m : HTTPMethod) (loc : String) (hd : List (String × String)) (bd : String)
        (q : List (String × String)) (f : HTTPListener T),
        lookupRoute listeners ⟨m, loc⟩ = none → d404 = some f →
        dispatch listeners d404 m loc hd bd q pt =
          (some ⟨f, hd, bd, q, pt⟩, f hd bd q pt)) ∧
    (∀ (m : HTTPMethod) (loc : String) (hd : List (String × String)) (bd : String)
        (q : List (String × String)),
        lookupRoute listeners ⟨m, loc⟩ = none → d404 = none →
        dispatch listeners d404 m loc hd bd q pt = (none, get_404_default_response)) ∧
    get_404_default_response =
      ⟨⟨404, "Not Found"⟩,
        "The requested resource hasn\x27t been found on this server.",
        [("Content-Length", "56")]⟩ := by
  refine ⟨?_, ?_, ?_, ?_, rfl⟩
  · unfold handle_stream
    rw [hread]
    simp only []
    unfold handleRequest
    rw [if_neg (by omega), if_neg (by omega), if_neg (by omega), if_neg hm]
    rfl
  · intro m loc h hd bd q hlook
    unfold dispatch
    rw [hlook]
  · intro m loc hd bd q f hlook h404
    unfold dispatch
    rw [hlook, h404]
  · intro m loc hd bd q hlook h404
    unfold dispatch
    rw [hlook, h404]

/-- C1 witness: a concrete GET request to a registered route, with every
hypothesis checked by evaluation. -/
theorem route_dispatch_determines_response_witness :
    (readHeadFuel (c1Stream.length + 1) [] c1Stream = some (c1Stream, ([] : List Char)) ∧
      3 ≤ (requestLines c1Stream).length ∧
      3 ≤ (contextTokens c1Stream).length ∧
      (headerInfo (requestLines c1Stream)).2 ≤ ([] : List Char).length ∧
      parsedMethodOf c1Stream ≠ HTTPMethod.INVALID) ∧
    handle_stream c1Stream [(⟨HTTPMethod.GET, "/hello"⟩, c1Handler)] none () =
      HandleOutcome.completed
        [(parsedDispatch c1Stream
            (([] : List Char).take (headerInfo (requestLines c1Stream)).2)
            [(⟨HTTPMethod.GET, "/hello"⟩, c1Handler)] none ()).2]
        (parsedDispatch c1Stream
          (([] : List Char).take (headerInfo (requestLines c1Stream)).2)
          [(⟨HTTPMethod.GET, "/hello"⟩, c1Handler)] none ()).1
        (parsedDispatch c1Stream
          (([] : List Char).take (headerInfo (requestLines c1Stream)).2)
          [(⟨HTTPMethod.GET, "/hello"⟩, c1Handler)] none ()).2 :=
  ⟨⟨by decide, by decide, by decide, by decide, by decide⟩,
    (route_dispatch_determines_response c1Stream
      [(⟨HTTPMethod.GET, "/hello"⟩, c1Handler)] none () c1Stream []
      (by decide) (by decide) (by decide) (by decide) (by decide)).1⟩

/-- C2 counterexample: the claim fails on the code in two ways.  First,
the nine strings the source recognizes include OPTION and not OPTIONS, so
the token OPTIONS is treated as invalid.  Second, after the built-in 400
response is sent for an unrecognized token such as FOO, the connection is
not closed without dispatch: lookup proceeds with the INVALID marker, the
registered 404 fallback is invoked, and its response is written as a
second response (or the built-in 404 is written when no fallback is
set). -/
theorem invalid_method_still_dispatches_cex :
    parseMethod "OPTIONS" = HTTPMethod.INVALID ∧
    parseMethod "OPTION" = HTTPMethod.OPTION ∧
    handle_stream c2Stream ([] : List (Route × HTTPListener Unit)) (some c2cexHandler) () =
      HandleOutcome.completed [send_400_default_response, c2cexResponse]
        (some ⟨c2cexHandler, [], "", [], ()⟩) c2cexResponse ∧
    handle_stream ("OPTIONS /x HTTP/1.1\r\n\r\n".data)
        ([] : List (Route × HTTPListener Unit)) none () =
      HandleOutcome.completed [send_400_default_response, get_404_default_response]
        none get_404_default_response :=
  ⟨rfl, rfl, rfl, rfl⟩

/-- C2 amended: for every request whose method token is not an exact ASCII
match of one of the nine recognized strings GET, HEAD, POST, PUT, DELETE,
CONNECT, OPTION, TRACE, PATCH, the built-in 400 response (status 400,
body Received invalid data, Content-Length 21) is written first, but the
connection is not closed without dispatch: route lookup proceeds with the
INVALID method marker and the dispatch result (the 404 fallback if set,
else the built-in 404) is written as a second response. -/
theorem invalid_method_400_then_dispatch {T : Type} (stream : List Char)
    (listeners : List (Route × HTTPListener T)) (d404 : Option (HTTPListener T))
    (pt : T) (request rest : List Char)
    (hread : readHeadFuel (stream.length + 1) [] stream = some (request, rest))
    (hlines : 3 ≤ (requestLines request).length)
    (hctx : 3 ≤ (contextTokens request).length)
    (hbody : (headerInfo (requestLines request)).2 ≤ rest.length)
    (hm : parsedMethodOf request = HTTPMethod.INVALID) :
    handle_stream stream listeners d404 pt =
      HandleOutcome.completed
        [send_400_default_response,
          (parsedDispatch request (rest.take (headerInfo (requestLines request)).2)
            listeners d404 pt).2]
        (parsedDispatch request (rest.take (headerInfo (requestLines request)).2)
          listeners d404 pt).1
        (parsedDispatch request (rest.take (headerInfo (requestLines request)).2)
          listeners d404 pt).2 ∧
    send_400_default_response =
      ⟨⟨400, "Bad Request"⟩, "Received invalid data", [("Content-Length", "21")]⟩ ∧
    parsedDispatch request (rest.take (headerInfo (requestLines request)).2)
        listeners d404 pt =
      dispatch listeners d404 HTTPMethod.INVALID
        (String.mk (trimLoc (splitAtFirst '?' (requestTarget request)).1))
        (headerInfo (requestLines request)).1
        (String.mk (rest.take (headerInfo (requestLines request)).2))
        (parseQuery (splitAtFirst '?' (requestTarget request)).2) pt := by
  refine ⟨?_, rfl, ?_⟩
  · unfold handle_stream
    rw [hread]
    simp only []
    unfold handleRequest
    rw [if_neg (by omega), if_neg (by omega), if_neg (by omega), if_pos hm]
    rfl
  · unfold parsedDispatch
    rw [hm]

/-- C2 witness: a concrete FOO request with a registered fallback. -/
theorem invalid_method_400_then_dispatch_witness :
    (readHeadFuel (c2Stream.length + 1) [] c2Stream = some (c2Stream, ([] : List Char)) ∧
      3 ≤ (requestLines c2Stream).length ∧
      3 ≤ (contextTokens c2Stream).length ∧
      (headerInfo (requestLines c2Stream)).2 ≤ ([] : List Char).length ∧
      parsedMethodOf c2Stream = HTTPMethod.INVALID) ∧
    handle_stream c2Stream ([] : List (Route × HTTPListener Unit)) (some c2Handler) () =
      HandleOutcome.completed
        [send_400_default_response,
          (parsedDispatch c2Stream
            (([] : List Char).take (headerInfo (requestLines c2Stream)).2)
            ([] : List (Route × HTTPListener Unit)) (some c2Handler) ()).2]
        (parsedDispatch c2Stream
          (([] : List Char).take (headerInfo (requestLines c2Stream)).2)
          ([] : List (Route × HTTPListener Unit)) (some c2Handler) ()).1
        (parsedDispatch c2Stream
          (([] : List Char).take (headerInfo (requestLines c2Stream)).2)
          ([] : List (Route × HTTPListener Unit)) (some c2Handler) ()).2 :=
  ⟨⟨by decide, by decide, by decide, by decide, by decide⟩,
    (invalid_method_400_then_dispatch c2Stream ([] : List (Route × HTTPListener Unit))
      (some c2Handler) () c2Stream []
      (by decide) (by decide) (by decide) (by decide) (by decide)).1⟩

/-- C3 counterexample: a header line whose value itself contains a colon,
such as Host followed by example.com:8080, splits into three parts and is
silently skipped, not inserted split at the first colon as the claim
states: after the header loop runs on a request carrying that line, the
Host key is absent from the header map. -/
theorem header_colon_value_skipped_cex :
    splitOnChar ':' ("Host: example.com:8080".data) =
      ["Host".data, " example.com".data, "8080".data] ∧
    headerStep ([("X", "y")], 5) ("Host: example.com:8080".data) = ([("X", "y")], 5) ∧
    mapLookup
      (headerInfo (requestLines
        ("GET / HTTP/1.1\r\nHost: example.com:8080\r\n\r\n".data))).1 "Host" = none := by
  refine ⟨by decide, by decide, by decide⟩

/-- C3 amended: for every header line after the request line, the parser
splits the line at every colon; exactly when that split yields exactly two
parts (the line contains exactly one colon) the key is inserted verbatim
with the whitespace-trimmed value, a duplicate key overwriting the earlier
value; every other line, including a line whose value contains a further
colon such as Host followed by example.com:8080, is silently skipped. -/
theorem header_line_split_exact_pair :
    (∀ (acc : List (String × String) × Nat) (l k v : List Char),
        splitOnChar ':' l = [k, v] →
        (headerStep acc l).1 = mapInsert acc.1 (String.mk k) (String.mk (trimChars v))) ∧
    (∀ (acc : List (String × String) × Nat) (l k v : List Char),
        splitOnChar ':' l = [k, v] →
        mapLookup (headerStep acc l).1 (String.mk k) = some (String.mk (trimChars v))) ∧
    (∀ (acc : List (String × String) × Nat) (l : List Char),
        (splitOnChar ':' l).length ≠ 2 → headerStep acc l = acc) ∧
    (∀ (m : List (String × String)) (k v k' : String),
        mapLookup (mapInsert m k v) k' = if k' = k then some v else mapLookup m k') ∧
    headerStep ([], 0) ("Host: example.com:8080".data) = ([], 0) := by
  refine ⟨?_, ?_, ?_, mapLookup_mapInsert, by decide⟩
  · intro acc l k v h
    simp [headerStep, h]
  · intro acc l k v h
    simp [headerStep, h, mapLookup_mapInsert]
  · intro acc l h
    unfold headerStep
    split
    · rename_i k v heq
      rw [heq] at h
      simp at h
    · rfl

/-- C3 witness: a single-colon header line is inserted with the trimmed
value and can be looked up under its verbatim key. -/
theorem header_line_split_exact_pair_witness :
    splitOnChar ':' ("Content-Type: text/html".data) =
      ["Content-Type".data, " text/html".data] ∧
    mapLookup (headerStep (([], 0) : List (String × String) × Nat)
        ("Content-Type: text/html".data)).1 (String.mk ("Content-Type".data)) =
      some (String.mk (trimChars (" text/html".data))) :=
  ⟨by decide,
    header_line_split_exact_pair.2.1 (([], 0) : List (String × String) × Nat)
      ("Content-Type: text/html".data) ("Content-Type".data) (" text/html".data)
      (by decide)⟩

/-- C4: path normalization strips trailing slash characters while the
path is longer than one character and does nothing else: the result plus
a block of trailing slashes reassembles the input, the result never ends
in a slash unless it has length at most one, a nonempty path stays
nonempty (so the path consisting of a single slash is preserved), and the
targets /foo, /foo/ and /foo/// all normalize to /foo and resolve to the
handler registered for /foo. -/
theorem trailing_slash_normalization :
    trimLoc "/".data = "/".data ∧
    trimLoc "/foo".data = "/foo".data ∧
    trimLoc "/foo/".data = "/foo".data ∧
    trimLoc "/foo///".data = "/foo".data ∧
    (∀ l : List Char, ∃ n, l = trimLoc l ++ List.replicate n '/') ∧
    (∀ l : List Char, (trimLoc l).getLast? = some '/' → (trimLoc l).length ≤ 1) ∧
    (∀ l : List Char, l ≠ [] → trimLoc l ≠ []) ∧
    (∀ (T : Type) (h : HTTPListener T) (hd : List (String × String)) (bd : String)
        (q : List (String × String)) (pt : T) (target : List Char),
        target = "/foo".data ∨ target = "/foo/".data ∨ target = "/foo///".data →
        dispatch [(⟨HTTPMethod.GET, "/foo"⟩, h)] none HTTPMethod.GET
            (String.mk (trimLoc target)) hd bd q pt =
          (some ⟨h, hd, bd, q, pt⟩, h hd bd q pt)) := by
  refine ⟨by decide, by decide, by decide, by decide, ?_, ?_, ?_, ?_⟩
  · intro l
    exact trimLocFuel_replicate l.length l
  · intro l
    exact trimLocFuel_no_trailing l.length l (Nat.le_refl _)
  · intro l h
    exact trimLocFuel_ne_nil l.length l h
  · intro T h hd bd q pt target htarget
    rcases htarget with rfl | rfl | rfl <;> rfl

def c4Handler : HTTPListener Unit := fun _ _ _ _ => ⟨⟨200, "OK"⟩, "x", []⟩

/-- C4 witness: the target /foo/// resolves to the handler registered at
/foo. -/
theorem trailing_slash_normalization_witness :
    ("/foo///".data = "/foo".data ∨ "/foo///".data = "/foo/".data ∨
      "/foo///".data = "/foo///".data) ∧
    dispatch [(⟨HTTPMethod.GET, "/foo"⟩, c4Handler)] none HTTPMethod.GET
        (String.mk (trimLoc "/foo///".data)) [] "" [] () =
      (some ⟨c4Handler, [], "", [], ()⟩, c4Handler [] "" [] ()) :=
  ⟨Or.inr (Or.inr rfl),
    trailing_slash_normalization.2.2.2.2.2.2.2 Unit c4Handler [] "" [] ()
      ("/foo///".data) (Or.inr (Or.inr rfl))⟩

/-- C5: the query string is the part of the request-target after the
first question mark (empty when there is none); it is split on ampersands
and a token enters the query map exactly when splitting it on the equals
sign yields exactly two parts, key and value verbatim, a later duplicate
key overwriting the earlier one; in particular path?a=1&b=2&c parses to
exactly the map with a mapped to 1 and b mapped to 2, the keyless c being
dropped. -/
theorem query_parsing_exact_pairs :
    splitAtFirst '?' ("path?a=1&b=2&c".data) = ("path".data, "?a=1&b=2&c".data) ∧
    parseQuery ("?a=1&b=2&c".data) = [("a", "1"), ("b", "2")] ∧
    (∀ (acc : List (String × String)) (p : List Char),
        (splitOnChar '=' p).length ≠ 2 → queryStep acc p = acc) ∧
    (∀ (acc : List (String × String)) (p k v : List Char),
        splitOnChar '=' p = [k, v] →
        queryStep acc p = mapInsert acc (String.mk k) (String.mk v)) ∧
    (∀ (m : List (String × String)) (k v k' : String),
        mapLookup (mapInsert m k v) k' = if k' = k then some v else mapLookup m k') := by
  refine ⟨by decide, by decide, ?_, ?_, mapLookup_mapInsert⟩
  · intro acc p h
    unfold queryStep
    split
    · rename_i k v heq
      rw [heq] at h
      simp at h
    · rfl
  · intro acc p k v h
    simp [queryStep, h]

/-- C5 witness: the token b=2 splits into exactly two parts and is
inserted verbatim. -/
theorem query_parsing_exact_pairs_witness :
    splitOnChar '=' ("b=2".data) = ["b".data, "2".data] ∧
    queryStep [("a", "1")] ("b=2".data) =
      mapInsert [("a", "1")] (String.mk ("b".data)) (String.mk ("2".data)) :=
  ⟨by decide,
    query_parsing_exact_pairs.2.2.2.1 [("a", "1")] ("b=2".data) ("b".data) ("2".data)
      (by decide)⟩

/-- C6: the serialized response is the status line HTTP/1.1 followed by
the status, a space, the reason and CRLF, then each header rendered as
key, a single colon with no space, the value, and a single newline (not
CRLF), one header after another in iteration order, then a CRLF marking
the end of headers, then the body immediately with no terminating
newline. -/
theorem response_serialization_format :
    (∀ (k v : String) (t : List (String × String)),
        parse_headers ((k, v) :: t) = k ++ ":" ++ v ++ "\n" ++ parse_headers t) ∧
    parse_headers [] = "" ∧
    (∀ r : HTTPResponse,
        close_stream r =
          "HTTP/1.1 " ++ toString r.status.status ++ " " ++ r.status.reason ++ "\r\n" ++
            parse_headers r.headers ++ "\r\n" ++ r.body) ∧
    close_stream ⟨⟨200, "OK"⟩, "hi", [("Content-Length", "2"), ("X", "y")]⟩ =
      "HTTP/1.1 200 OK\r\nContent-Length:2\nX:y\n\r\nhi" := by
  refine ⟨?_, rfl, fun r => rfl, by decide⟩
  intro k v t
  have h := parse_headers_foldl t ("" ++ k ++ ":" ++ v ++ "\n")
  simp only [parse_headers, List.foldl_cons]
  rw [h, String.empty_append]
  rfl

/-- C7: after the head is parsed, exactly Content-Length bytes are read
into the body buffer (a successful read returns a buffer of exactly the
requested length that prefixes the stream), the read fails exactly when
the stream holds fewer bytes than requested, and on a well-formed head
with a short remaining stream the read-body error branch of the pipeline
is reached: the connection ends in the unwrap panic with nothing written
and no handler invoked, as the concrete truncated POST request shows. -/
theorem body_read_exact_or_panic :
    (∀ (rest : List Char) (n : Nat) (buf leftover : List Char),
        read_exact rest n = some (buf, leftover) →
        buf.length = n ∧ buf ++ leftover = rest) ∧
    (∀ (rest : List Char) (n : Nat), read_exact rest n = none ↔ rest.length < n) ∧
    (∀ (T : Type) (request rest : List Char)
        (listeners : List (Route × HTTPListener T)) (d404 : Option (HTTPListener T))
        (pt : T),
        3 ≤ (requestLines request).length →
        3 ≤ (contextTokens request).length →
        rest.length < (headerInfo (requestLines request)).2 →
        handleRequest request rest listeners d404 pt = HandleOutcome.panicked []) ∧
    handle_stream ("POST / HTTP/1.1\r\nContent-Length: 5\r\n\r\nab".data)
        ([] : List (Route × HTTPListener Unit)) none () = HandleOutcome.panicked [] := by
  refine ⟨?_, ?_, ?_, rfl⟩
  · intro rest n buf leftover h
    unfold read_exact at h
    by_cases hlt : rest.length < n
    · rw [if_pos hlt] at h
      exact Option.noConfusion h
    · rw [if_neg hlt] at h
      have hp := Option.some.inj h
      have hb : buf = rest.take n := congrArg Prod.fst hp.symm
      have hl : leftover = rest.drop n := congrArg Prod.snd hp.symm
      subst hb
      subst hl
      refine ⟨?_, List.take_append_drop n rest⟩
      rw [List.length_take]
      omega
  · intro rest n
    by_cases h : rest.length < n <;> simp [read_exact, h]
  · intro T request rest listeners d404 pt h1 h2 h3
    unfold handleRequest
    rw [if_neg (by omega), if_neg (by omega), if_pos h3]

def c7Request : List Char := "POST / HTTP/1.1\r\nContent-Length: 5\r\n\r\n".data

/-- C7 witness: the truncated POST request reaches the panic branch. -/
theorem body_read_exact_or_panic_witness :
    (3 ≤ (requestLines c7Request).length ∧
      3 ≤ (contextTokens c7Request).length ∧
      ("ab".data).length < (headerInfo (requestLines c7Request)).2) ∧
    handleRequest c7Request ("ab".data) ([] : List (Route × HTTPListener Unit)) none () =
      HandleOutcome.panicked [] :=
  ⟨⟨by decide, by decide, by decide⟩,
    body_read_exact_or_panic.2.2.1 Unit c7Request ("ab".data)
      ([] : List (Route × HTTPListener Unit)) none ()
      (by decide) (by decide) (by decide)⟩

/-- C8: the phrase table succeeds for exactly the 54 listed status codes
and fails (panics in the source, modelled as none) for every other code,
and it preserves the spellings of the source, including Not Modigied for
304 and Too Many Requirests for 429. -/
theorem http_code_reason_domain_and_spellings :
    (∀ n : Nat, (http_code_reason n).isSome = true ↔ n ∈ recognizedCodes) ∧
    recognizedCodes.length = 54 ∧
    http_code_reason 304 = some "Not Modigied" ∧
    http_code_reason 429 = some "Too Many Requirests" := by
  refine ⟨?_, rfl, rfl, rfl⟩
  intro n
  unfold http_code_reason
  split
  all_goals try decide
  simp_all [recognizedCodes]

def c9Response : HTTPResponse := ⟨⟨200, "OK"⟩, "ok", []⟩

def c9Handler : HTTPListener Unit := fun _ _ _ _ => c9Response

/-- C9: when a header line beginning with the literal Content-Length
splits into exactly two parts, its whitespace-trimmed value parsed as a
non-negative integer becomes the body length, and every value that fails
to parse yields body length 0 while processing continues: the concrete
request with Content-Length abc is still dispatched to its route handler
with body length 0. -/
theorem content_length_parse_failure_zero :
    (∀ (acc : List (String × String) × Nat) (l k v : List Char),
        splitOnChar ':' l = [k, v] →
        List.isPrefixOf ("Content-Length".data) l = true →
        (headerStep acc l).2 = (parseUsize (trimChars v)).getD 0) ∧
    (∀ (acc : List (String × String) × Nat) (l k v : List Char),
        splitOnChar ':' l = [k, v] →
        List.isPrefixOf ("Content-Length".data) l = true →
        parseUsize (trimChars v) = none →
        (headerStep acc l).2 = 0) ∧
    handle_stream ("GET / HTTP/1.1\r\nContent-Length: abc\r\n\r\n".data)
        [(⟨HTTPMethod.GET, "/"⟩, c9Handler)] none () =
      HandleOutcome.completed [c9Response]
        (some ⟨c9Handler, [("Content-Length", "abc")], "", [], ()⟩) c9Response := by
  refine ⟨?_, ?_, rfl⟩
  · intro acc l k v hs hp
    simp [headerStep, hs, hp]
  · intro acc l k v hs hp hn
    simp [headerStep, hs, hp, hn]

/-- C9 witness: a Content-Length header whose value is not a number
yields body length 0. -/
theorem content_length_parse_failure_zero_witness :
    (splitOnChar ':' ("Content-Length: x".data) =
        ["Content-Length".data, " x".data] ∧
      List.isPrefixOf ("Content-Length".data) ("Content-Length: x".data) = true ∧
      parseUsize (trimChars (" x".data)) = none) ∧
    (headerStep ([("A", "b")], 7) ("Content-Length: x".data)).2 = 0 :=
  ⟨⟨by decide, by decide, by decide⟩,
    content_length_parse_failure_zero.2.1 ([("A", "b")], 7) ("Content-Length: x".data)
      ("Content-Length".data) (" x".data) (by decide) (by decide) (by decide)⟩

/-- C10: the head-reading loop terminates on every finite stream: each
read either returns a line of fewer than 3 bytes, including the zero-byte
read at end of stream, which exits the loop, or returns a line of at
least 3 bytes and strictly consumes input; consequently fuel equal to the
stream length plus one always suffices for the embedded loop and
handle_stream never reports fuel exhaustion. -/
theorem head_loop_terminates :
    (∀ s : List Char,
        lineBytes (readLine s).1 < 3 ∨
          (3 ≤ lineBytes (readLine s).1 ∧ (readLine s).2.length < s.length)) ∧
    (∀ acc s : List Char, (readHeadFuel (s.length + 1) acc s).isSome = true) ∧
    (∀ (T : Type) (stream : List Char) (listeners : List (Route × HTTPListener T))
        (d404 : Option (HTTPListener T)) (pt : T),
        handle_stream stream listeners d404 pt ≠ HandleOutcome.loopDiverged) := by
  refine ⟨?_, ?_, ?_⟩
  · intro s
    by_cases hb : lineBytes (readLine s).1 < 3
    · exact Or.inl hb
    · refine Or.inr ⟨by omega, ?_⟩
      exact readLine_snd_length_lt s (readLine_fst_ne_nil_of_bytes s (by omega))
  · intro acc s
    exact readHeadFuel_isSome (s.length + 1) acc s (Nat.lt_succ_self _)
  · intro T stream listeners d404 pt hcontra
    have hs := readHeadFuel_isSome (stream.length + 1) [] stream (Nat.lt_succ_self _)
    unfold handle_stream at hcontra
    rcases hre : readHeadFuel (stream.length + 1) [] stream with _ | hr
    · rw [hre] at hs
      simp at hs
    · rw [hre] at hcontra
      simp only [] at hcontra
      unfold handleRequest at hcontra
      split at hcontra
      · injection hcontra
      · split at hcontra
        · injection hcontra
        · split at hcontra
          · injection hcontra
          · injection hcontra

/-- C10 witness: a concrete stream with no empty line still terminates
the loop. -/
theorem head_loop_terminates_witness :
    (readHeadFuel (("GET / HTTP/1.1".data).length + 1) [] ("GET / HTTP/1.1".data)).isSome =
      true ∧
    handle_stream ("GET / HTTP/1.1".data) ([] : List (Route × HTTPListener Unit))
        none () ≠ HandleOutcome.loopDiverged :=
  ⟨head_loop_terminates.2.1 [] ("GET / HTTP/1.1".data),
    head_loop_terminates.2.2 Unit ("GET / HTTP/1.1".data)
      ([] : List (Route × HTTPListener Unit)) none ()⟩

end Adhesion
